import Mathlib

/-!
Shallow embedding of the Medium-articles chatbot (app/tools.py, app/workflows.py,
simple_api.py).  Machine strings are Lean `String`s; the external LlamaCloud
retrieval call is modelled as an explicit input of type
`Except String (List SearchResult)` (an exception message or a result list);
the JSON catalog is a `Catalog` value passed explicitly.
-/

/-- Python `needle` is a prefix of `hay` over char lists. -/
def listHasPre : List Char → List Char → Bool
  | [], _ => true
  | _ :: _, [] => false
  | a :: as, b :: bs => a == b && listHasPre as bs

/-- Python substring containment `needle in hay` over char lists. -/
def listFind (needle : List Char) : List Char → Bool
  | [] => listHasPre needle []
  | b :: bs => listHasPre needle (b :: bs) || listFind needle bs

/-- Python `needle in hay` on strings (case-sensitive; callers lower-case as the source does). -/
def strHas (hay needle : String) : Bool :=
  listFind needle.data hay.data

/-- Python lexicographic string comparison (`a < b`) over char lists, by code point. -/
def listLt : List Char → List Char → Bool
  | [], [] => false
  | [], _ :: _ => true
  | _ :: _, [] => false
  | x :: xs, y :: ys => if x < y then true else if x = y then listLt xs ys else false

/-- Python `a < b` on strings. -/
def strLt (a b : String) : Bool :=
  listLt a.data b.data

/-- Python `s.lower()` (modelled on the ASCII range, which covers every keyword and
key the routing logic compares). -/
def strLower (s : String) : String :=
  String.mk (s.data.map Char.toLower)

/-- Python newline-join of a list of parts. -/
def joinNl : List String → String
  | [] => ""
  | [s] => s
  | s :: rest => s ++ "\n" ++ joinNl rest

/-- An article record of `articles_manifest.json` (spec section 3 ArticleRecord).
`none` models an absent key. -/
structure Article where
  title : String
  date : Option String
  year : Option Int
  tags : List String
  tech_stack : List String
  word_count : Option Nat
  content : Option String
deriving DecidableEq

/-- An article-summary record of `tech_index.json` (title and optional date). -/
structure IdxArticle where
  title : String
  date : Option String
deriving DecidableEq

/-- The in-memory catalog loaded once at startup (tools.py line 22):
the manifest list and the technology-to-articles index (an association list,
JSON object order preserved). -/
structure Catalog where
  articles_manifest : List Article
  tech_index_data : List (String × List IdxArticle)
deriving DecidableEq

/-- A transient result of the external retriever: optional metadata title,
relevance score (modelled as a rational), matched text. -/
structure SearchResult where
  title : Option String
  score : ℚ
  text : String
deriving DecidableEq

/-- Rendering of a score with two decimal places (Python `f"{score:.2f}"`). -/
def fmt2 (q : ℚ) : String :=
  let n : ℤ := round (q * 100)
  let m : ℕ := n.natAbs
  (if n < 0 then "-" else "") ++ toString (m / 100) ++ "." ++
    (if m % 100 < 10 then "0" else "") ++ toString (m % 100)

/-- One result block of `search_articles` (tools.py lines 57-61): 1-based index,
title defaulting to "Unknown", score to 2 decimals, first 300 chars of text. -/
def renderResult (i : Nat) (r : SearchResult) : List String :=
  ["Result " ++ toString i ++ ":",
   "Title: " ++ r.title.getD "Unknown",
   "Relevance: " ++ fmt2 r.score,
   "Excerpt: " ++ r.text.take 300 ++ "...",
   "---"]

/-- `search_articles` (tools.py lines 34-63).  The external retrieval call is the
`outcome` argument: `.error e` models a raised exception with message `e`,
`.ok results` a successful retrieval. -/
def search_articles (query : String) (top_k : Nat)
    (outcome : Except String (List SearchResult)) : String :=
  match query, top_k, outcome with
  | _, _, .error e =>
      "LlamaCloud search unavailable (" ++ e ++ "). Using local article metadata search instead."
  | _, _, .ok results =>
      if results.isEmpty then "No relevant articles found."
      else joinNl (((results.enumFrom 1).map (fun p => renderResult p.1 p.2)).flatten)

/-- The per-article keep test of `filter_by_metadata` (tools.py lines 75-93):
Python truthiness makes an empty-string tech/tag and a zero year skip that filter. -/
def keepArticle (tech : Option String) (year : Option Int) (tag : Option String)
    (a : Article) : Bool :=
  (match tech with
   | none => true
   | some t => t == "" || a.tech_stack.any (fun s => strHas (strLower s) (strLower t))) &&
  (match year with
   | none => true
   | some y => y == 0 || a.year == some y) &&
  (match tag with
   | none => true
   | some t => t == "" || a.tags.any (fun s => strHas (strLower s) (strLower t)))

/-- The matching articles of `filter_by_metadata` (tools.py loop, lines 73-93). -/
def filteredMatches (cat : Catalog) (tech : Option String) (year : Option Int)
    (tag : Option String) : List Article :=
  cat.articles_manifest.filter (keepArticle tech year tag)

/-- Display block for one match (tools.py lines 99-104). -/
def renderFilterMatch (tech : Option String) (a : Article) : List String :=
  ["• " ++ a.title, "  Date: " ++ a.date.getD "Unknown"] ++
  (match tech with
   | none => []
   | some t => if t == "" then [] else ["  Tech: " ++ String.intercalate ", " a.tech_stack]) ++
  [""]

/-- `filter_by_metadata` (tools.py lines 65-109). -/
def filter_by_metadata (cat : Catalog) (tech : Option String) (year : Option Int)
    (tag : Option String) : String :=
  let ms := filteredMatches cat tech year tag
  if ms.isEmpty then "No articles found matching the criteria."
  else
    joinNl (("Found " ++ toString ms.length ++ " matching articles:\n") ::
      (((ms.take 10).map (renderFilterMatch tech)).flatten ++
       (if ms.length > 10 then ["... and " ++ toString (ms.length - 10) ++ " more"]
        else [])))

/-- Sort key of `analyze_tech_stack` (tools.py line 127): `x.get(\x27date\x27) or the empty string`. -/
def dateKey (a : IdxArticle) : String :=
  a.date.getD ""

/-- Stable insertion step for the date-descending sort: `a` goes before the first
element whose key is not strictly greater (Python `list.sort(key=..., reverse=True)`
keeps original order among equal keys). -/
def insertByDateDesc (a : IdxArticle) : List IdxArticle → List IdxArticle
  | [] => [a]
  | b :: bs => if strLt (dateKey a) (dateKey b) then b :: insertByDateDesc a bs else a :: b :: bs

/-- Stable date-descending sort (tools.py line 127). -/
def sortByDateDesc : List IdxArticle → List IdxArticle
  | [] => []
  | a :: as => insertByDateDesc a (sortByDateDesc as)

/-- Aggregation of matched tech-index entries (tools.py lines 118-121):
case-insensitive substring match of the technology against each key. -/
def matchingArticles (idx : List (String × List IdxArticle)) (technology : String) :
    List IdxArticle :=
  ((idx.filter (fun p => strHas (strLower p.1) (strLower technology))).map (fun p => p.2)).flatten

/-- Minimum of a nonempty string list (Python `min(dates)`). -/
def listMinStr (d : String) (ds : List String) : String :=
  ds.foldl (fun acc x => if strLt x acc then x else acc) d

/-- Maximum of a nonempty string list (Python `max(dates)`). -/
def listMaxStr (d : String) (ds : List String) : String :=
  ds.foldl (fun acc x => if strLt acc x then x else acc) d

/-- The rendered body of `analyze_tech_stack` over the already-sorted match list
(tools.py lines 129-148). -/
def renderAnalysis (technology : String) (sorted : List IdxArticle) : List String :=
  ["📊 Analysis for \x27" ++ technology ++ "\x27:\n",
   "Total articles: " ++ toString sorted.length] ++
  (match (sorted.filterMap (fun a => a.date)).filter (fun d => d ≠ "") with
   | [] => []
   | d :: ds =>
      ["First mention: " ++ (listMinStr d ds).take 10,
       "Latest mention: " ++ (listMaxStr d ds).take 10]) ++
  (("\nArticles mentioning \x27" ++ technology ++ "\x27:\n") ::
    ((sorted.take 5).map (fun a =>
      ["• " ++ a.title, "  Date: " ++ (a.date.getD "Unknown").take 10, ""])).flatten) ++
  (if sorted.length > 5 then
    ["... and " ++ toString (sorted.length - 5) ++ " more articles"]
   else [])

/-- `analyze_tech_stack` (tools.py lines 111-148). -/
def analyze_tech_stack (cat : Catalog) (technology : String) : String :=
  let matching := matchingArticles cat.tech_index_data technology
  if matching.isEmpty then
    "No articles found mentioning \x27" ++ technology ++ "\x27."
  else joinNl (renderAnalysis technology (sortByDateDesc matching))

/-- Per-technology article counts (tools.py line 154), in index order. -/
def techCounts (idx : List (String × List IdxArticle)) : List (String × Nat) :=
  idx.map (fun p => (p.1, p.2.length))

/-- Stable insertion step for the count-ascending sort (Python `sorted` is stable). -/
def insertByCountAsc (a : String × Nat) : List (String × Nat) → List (String × Nat)
  | [] => [a]
  | b :: bs => if b.2 < a.2 then b :: insertByCountAsc a bs else a :: b :: bs

/-- Stable count-ascending sort (tools.py line 155). -/
def sortByCountAsc : List (String × Nat) → List (String × Nat)
  | [] => []
  | a :: as => insertByCountAsc a (sortByCountAsc as)

/-- The limited-coverage entries of `find_content_gaps` (tools.py lines 174-177):
only the first 10 entries of the count-ascending order are examined. -/
def limitedTechsOf (idx : List (String × List IdxArticle)) : List (String × Nat) :=
  ((sortByCountAsc (techCounts idx)).take 10).filter (fun p => p.2 < 3)

/-- Truthy distinct years in manifest order (tools.py lines 158-162 dict keys). -/
def yearsOf (articles : List Article) : List Int :=
  articles.foldl (fun acc a =>
    match a.year with
    | some y => if y == 0 || acc.contains y then acc else acc ++ [y]
    | none => acc) []

/-- Stable insertion step for ascending integer sort (Python `sorted(keys)`). -/
def insertIntAsc (a : Int) : List Int → List Int
  | [] => [a]
  | b :: bs => if b < a then b :: insertIntAsc a bs else a :: b :: bs

/-- Ascending integer sort (tools.py line 180). -/
def sortIntAsc : List Int → List Int
  | [] => []
  | a :: as => insertIntAsc a (sortIntAsc as)

/-- `find_content_gaps` (tools.py lines 150-188). -/
def find_content_gaps (cat : Catalog) : String :=
  joinNl (["📈 Content Gap Analysis\n",
           "Total articles: " ++ toString cat.articles_manifest.length,
           "Articles since 2023: " ++
             toString (cat.articles_manifest.filter (fun a => a.year.getD 0 ≥ 2023)).length ++ "\n",
           "Technologies with limited coverage (< 3 articles):"] ++
          ((limitedTechsOf cat.tech_index_data).map (fun p =>
            "  • " ++ p.1 ++ ": " ++ toString p.2 ++ " article(s)")) ++
          ["\n📅 Publishing frequency by year:"] ++
          ((sortIntAsc (yearsOf cat.articles_manifest)).map (fun y =>
            "  • " ++ toString y ++ ": " ++
              toString (cat.articles_manifest.filter (fun a => a.year == some y)).length ++
              " articles")) ++
          ["\n💡 Recommendations:",
           "  • Consider deep dives on underserved technologies",
           "  • Update older popular articles",
           "  • Combine technologies you know well but haven\x27t written about together"])

/-- Full rendering of a single matched article (tools.py lines 206-218). -/
def renderFull (a : Article) : List String :=
  ["Title: " ++ a.title,
   "Date: " ++ a.date.getD "Unknown",
   "Tags: " ++ String.intercalate ", " a.tags,
   "Tech: " ++ String.intercalate ", " a.tech_stack,
   "Word count: " ++ toString (a.word_count.getD 0),
   "\n--- Content ---\n",
   (a.content.getD "").take 2000] ++
  (if (a.content.getD "").length > 2000 then ["\n... (content truncated)"] else [])

/-- `get_full_article` (tools.py lines 190-218). -/
def get_full_article (cat : Catalog) (article_title : String) : String :=
  match cat.articles_manifest.filter
      (fun a => strHas (strLower a.title) (strLower article_title)) with
  | [] => "No article found with title containing \x27" ++ article_title ++ "\x27"
  | [a] => joinNl (renderFull a)
  | a :: b :: rest =>
      "Multiple matches found. Please be more specific:\n" ++
        joinNl (((a :: b :: rest).take 5).map (fun x => "  • " ++ x.title))

/-- The fixed technology keyword list of the Discovery workflow (workflows.py line 33). -/
def tech_keywords : List String :=
  ["python", "ai", "claude", "openai", "llamaindex", "react", "docker"]

/-- `mentioned_tech` of the Discovery workflow (workflows.py line 34): keywords of
the fixed list occurring case-insensitively in the query, in list order. -/
def mentionedTech (query : String) : List String :=
  tech_keywords.filter (fun t => strHas (strLower query) (strLower t))

/-- The technologies the Discovery workflow analyzes (workflows.py line 37):
at most the first 2 mentioned keywords. -/
def discoveryTechsToAnalyze (query : String) : List String :=
  (mentionedTech query).take 2

/-- One technology-coverage section of the Discovery workflow (workflows.py lines 38-41). -/
def techSection (cat : Catalog) (tech : String) : List String :=
  let ta := analyze_tech_stack cat tech
  if strHas ta "No articles found" then []
  else ["\n🔧 **" ++ tech.capitalize ++ " Coverage:**", ta]

/-- `DiscoveryWorkflow.discover_articles` (workflows.py lines 16-54).  `retrieve k`
models the external retrieval call with `similarity_top_k = k`. -/
def discover_articles (cat : Catalog)
    (retrieve : Nat → Except String (List SearchResult)) (query : String) : String :=
  if query == "" then "Please provide a question about the articles."
  else
    let sr := search_articles query 3 (retrieve 3)
    let p1 := if strHas sr "No relevant articles found" then [] else ["🔍 **Search Results:**", sr]
    let parts := p1 ++ ((discoveryTechsToAnalyze query).map (techSection cat)).flatten
    let parts :=
      if parts.isEmpty then
        ["I couldn\x27t find specific matches for your query. Here are some ways I can help:",
         "• Ask about specific technologies (Python, AI, LlamaIndex, etc.)",
         "• Request articles from specific years",
         "• Search for topics like \x27patent filing\x27, \x27AI workflows\x27, or \x27productivity\x27"]
      else parts
    joinNl (parts ++
      ["\n📚 **Note:** I provide article summaries and teasers to help you discover interesting content. For full articles, visit the original Medium posts."])

/-- Keyword-group test of the workflow dispatchers (`any(word in query.lower() ...)`). -/
def anyWord (query : String) (words : List String) : Bool :=
  words.any (fun w => strHas (strLower query) w)

/-- One technology section of the Analytics technology-focus branch
(workflows.py lines 161-165). -/
def analyticsTechSection (cat : Catalog) (tech : String) : List String :=
  let ta := analyze_tech_stack cat tech
  if strHas ta "No articles found" then [] else ["\n**" ++ tech ++ ":**", ta]

/-- `AnalyticsWorkflow.analyze_content` (workflows.py lines 119-192): the ordered
if/elif keyword-group chain. -/
def analyze_content (cat : Catalog)
    (retrieve : Nat → Except String (List SearchResult)) (query : String) : String :=
  if query == "" then
    "Please specify what type of analysis you\x27d like: content gaps, writing patterns, article performance, or strategy recommendations."
  else
    joinNl ("📊 **Content Analytics Dashboard**\n" ::
      ((if anyWord query ["gap", "opportunity", "missing", "underserved"] then
          ["**Content Gap Analysis:**", find_content_gaps cat]
        else if anyWord query ["article", "content", "full", "detail"] then
          ["**Article Search Results:**", search_articles query 5 (retrieve 5),
           "\n💡 **Tip:** To get full article content, ask for a specific article title."]
        else if anyWord query ["pattern", "performance", "trend", "frequency"] then
          ["**Writing Patterns Analysis:**",
           (filter_by_metadata cat none none none).take 1000,
           "\n**Strategic Recommendations:**", find_content_gaps cat]
        else if anyWord query ["technology", "tech", "focus", "expertise"] then
          "**Technology Focus Analysis:**" ::
            ((["AI", "Claude", "Python", "LlamaIndex", "OpenAI"].map
              (analyticsTechSection cat)).flatten)
        else if anyWord query ["strategy", "next", "recommend", "suggest", "improve"] then
          ["**Content Strategy Recommendations:**", find_content_gaps cat,
           "\n**Additional Strategic Insights:**",
           "• Consider creating series on AI workflow automation",
           "• Expand Python + AI integration tutorials",
           "• Document more real-world AI implementation case studies",
           "• Create beginner-friendly guides for identified technologies"]
        else
          ["**Comprehensive Content Overview:**", find_content_gaps cat,
           "\n**Query-Specific Results:**", search_articles query 3 (retrieve 3)]) ++
       ["\n🔒 **Private Mode:** Full analytics access with detailed content insights and strategic recommendations."]))

/-- Prompt construction of `POST /chat` (simple_api.py lines 33-52): the request
mode field is optional (`none` = absent, pydantic default "discovery"). -/
def chatPrompt (mode : Option String) (query : String) : String :=
  let m := mode.getD "discovery"
  if m == "discovery" then
    "You are a discovery agent. Provide brief summaries and teasers about articles. Query: " ++ query
  else if m == "tech-explorer" then
    "You are a tech explorer. Analyze technical expertise and technology patterns. Query: " ++ query
  else if m == "analytics" then
    "You are an analytics agent. Provide detailed content analysis and strategy recommendations. Query: " ++ query
  else query

/-- State-threading form of `search_articles`: the catalog is passed through and
returned, mirroring that the function reads no catalog state and writes none. -/
def search_articlesSt (cat : Catalog) (query : String) (top_k : Nat)
    (outcome : Except String (List SearchResult)) : String × Catalog :=
  (search_articles query top_k outcome, ⟨cat.articles_manifest, cat.tech_index_data⟩)

/-- State-threading form of `filter_by_metadata`: reads `articles_manifest`, writes nothing. -/
def filter_by_metadataSt (cat : Catalog) (tech : Option String) (year : Option Int)
    (tag : Option String) : String × Catalog :=
  (filter_by_metadata cat tech year tag, ⟨cat.articles_manifest, cat.tech_index_data⟩)

/-- State-threading form of `analyze_tech_stack`: the sort is applied to the freshly
built `matchingArticles` list, never to the stored per-technology lists. -/
def analyze_tech_stackSt (cat : Catalog) (technology : String) : String × Catalog :=
  let matching := matchingArticles cat.tech_index_data technology
  ((if matching.isEmpty then "No articles found mentioning \x27" ++ technology ++ "\x27."
    else joinNl (renderAnalysis technology (sortByDateDesc matching))),
   ⟨cat.articles_manifest, cat.tech_index_data⟩)

/-- State-threading form of `find_content_gaps`. -/
def find_content_gapsSt (cat : Catalog) : String × Catalog :=
  (find_content_gaps cat, ⟨cat.articles_manifest, cat.tech_index_data⟩)

/-- State-threading form of `get_full_article`. -/
def get_full_articleSt (cat : Catalog) (article_title : String) : String × Catalog :=
  (get_full_article cat article_title, ⟨cat.articles_manifest, cat.tech_index_data⟩)

theorem listFind_nil (hay : List Char) : listFind [] hay = true := by
  cases hay <;> simp [listFind, listHasPre]

theorem listHasPre_append (n : List Char) :
    ∀ h post, listHasPre n h = true → listHasPre n (h ++ post) = true := by
  induction n with
  | nil => intro h post _; simp [listHasPre]
  | cons a as ih =>
    intro h post hp
    cases h with
    | nil => simp [listHasPre] at hp
    | cons b bs =>
      simp only [listHasPre, Bool.and_eq_true] at hp
      simp only [List.cons_append, listHasPre, Bool.and_eq_true]
      exact ⟨hp.1, ih bs post hp.2⟩

theorem listHasPre_self_append (n post : List Char) : listHasPre n (n ++ post) = true := by
  induction n with
  | nil => simp [listHasPre]
  | cons a as ih => simp [listHasPre, ih]

theorem listFind_append_right (n : List Char) :
    ∀ h post, listFind n h = true → listFind n (h ++ post) = true := by
  intro h
  induction h with
  | nil =>
    intro post hf
    simp only [listFind] at hf
    cases n with
    | nil => simpa using listFind_nil post
    | cons a as => simp [listHasPre] at hf
  | cons b bs ih =>
    intro post hf
    simp only [listFind, Bool.or_eq_true] at hf
    simp only [List.cons_append, listFind, Bool.or_eq_true]
    cases hf with
    | inl hp => exact Or.inl (listHasPre_append n (b :: bs) post hp)
    | inr hr => exact Or.inr (ih post hr)

theorem listFind_append_left (n pre h : List Char) (hf : listFind n h = true) :
    listFind n (pre ++ h) = true := by
  induction pre with
  | nil => simpa using hf
  | cons p ps ih =>
    simp only [List.cons_append, listFind, Bool.or_eq_true]
    exact Or.inr ih

theorem listFind_self_append (n post : List Char) : listFind n (n ++ post) = true := by
  cases n with
  | nil => simpa using listFind_nil post
  | cons a as =>
    simp only [List.cons_append, listFind, Bool.or_eq_true]
    exact Or.inl (by simpa using listHasPre_self_append (a :: as) post)

theorem strHas_append_right (h₁ h₂ n : String) (hf : strHas h₁ n = true) :
    strHas (h₁ ++ h₂) n = true := by
  simp only [strHas, String.data_append]
  exact listFind_append_right n.data h₁.data h₂.data hf

theorem strHas_append_left (h₁ h₂ n : String) (hf : strHas h₂ n = true) :
    strHas (h₁ ++ h₂) n = true := by
  simp only [strHas, String.data_append]
  exact listFind_append_left n.data h₁.data h₂.data hf

theorem strHas_refl (s : String) : strHas s s = true := by
  have := listFind_self_append s.data []
  simpa [strHas] using this

theorem strHas_middle (pre s post : String) : strHas (pre ++ s ++ post) s = true :=
  strHas_append_right (pre ++ s) post s (strHas_append_left pre s s (strHas_refl s))

theorem strHas_joinNl {s : String} : ∀ {parts : List String}, s ∈ parts →
    strHas (joinNl parts) s = true := by
  intro parts
  induction parts with
  | nil => intro hm; cases hm
  | cons x xs ih =>
    intro hm
    cases xs with
    | nil =>
      have hx : s = x := by simpa using hm
      subst hx
      simpa [joinNl] using strHas_refl s
    | cons y ys =>
      rw [List.mem_cons] at hm
      cases hm with
      | inl hx =>
        subst hx
        exact strHas_append_right _ _ _ (strHas_append_right _ _ _ (strHas_refl s))
      | inr hr =>
        exact strHas_append_left (x ++ "\n") (joinNl (y :: ys)) s (ih hr)

theorem listLt_nil_right (l : List Char) : listLt l [] = false := by
  cases l <;> simp [listLt]

theorem listLt_irrefl (l : List Char) : listLt l l = false := by
  induction l with
  | nil => simp [listLt]
  | cons x xs ih => simp [listLt, ih]

theorem listLt_trans : ∀ {a b c : List Char},
    listLt a b = true → listLt b c = true → listLt a c = true := by
  intro a
  induction a with
  | nil =>
    intro b c _ h2
    cases c with
    | nil => cases b <;> simp [listLt] at h2
    | cons z zs => simp [listLt]
  | cons x xs ih =>
    intro b c h1 h2
    cases b with
    | nil => simp [listLt] at h1
    | cons y ys =>
      cases c with
      | nil => simp [listLt_nil_right] at h2
      | cons z zs =>
        simp only [listLt] at h1 h2 ⊢
        split at h1
        · rename_i hxy
          split at h2
          · rename_i hyz
            rw [if_pos (lt_trans hxy hyz)]
          · split at h2
            · rename_i hyz
              subst hyz
              rw [if_pos hxy]
            · exact absurd h2 (by simp)
        · split at h1
          · rename_i hxy
            subst hxy
            split at h2
            · rename_i hyz
              rw [if_pos hyz]
            · split at h2
              · rename_i hyz
                subst hyz
                split
                · rfl
                · rw [if_pos rfl]
                  exact ih h1 h2
              · exact absurd h2 (by simp)
          · exact absurd h1 (by simp)

theorem listLt_trichot (a : List Char) :
    ∀ b, listLt a b = true ∨ listLt b a = true ∨ a = b := by
  induction a with
  | nil =>
    intro b
    cases b with
    | nil => right; right; rfl
    | cons y ys => left; simp [listLt]
  | cons x xs ih =>
    intro b
    cases b with
    | nil => right; left; simp [listLt]
    | cons y ys =>
      rcases lt_trichotomy x y with hxy | hxy | hxy
      · left; simp [listLt, hxy]
      · subst hxy
        rcases ih ys with h | h | h
        · left; simp [listLt, h]
        · right; left; simp [listLt, h]
        · subst h; right; right; rfl
      · right; left; simp [listLt, hxy]

theorem listLt_asymm {a b : List Char} (h : listLt a b = true) : listLt b a = false := by
  by_contra hc
  rw [Bool.not_eq_false] at hc
  have := listLt_trans h hc
  rw [listLt_irrefl] at this
  exact Bool.false_ne_true this

theorem listLt_neg_trans {a b c : List Char}
    (h1 : listLt a b = false) (h2 : listLt b c = false) : listLt a c = false := by
  by_contra hc
  rw [Bool.not_eq_false] at hc
  rcases listLt_trichot a b with hab | hba | heq
  · rw [h1] at hab; exact Bool.false_ne_true hab
  · have := listLt_trans hba hc
    rw [h2] at this
    exact Bool.false_ne_true this
  · subst heq; rw [h2] at hc; exact Bool.false_ne_true hc

theorem strLt_asymm {a b : String} (h : strLt a b = true) : strLt b a = false :=
  listLt_asymm h

theorem strLt_neg_trans {a b c : String}
    (h1 : strLt a b = false) (h2 : strLt b c = false) : strLt a c = false :=
  listLt_neg_trans h1 h2

theorem strLt_empty_forces {d : String} (h : strLt "" d = false) : d = "" := by
  cases hd : d.data with
  | nil =>
    cases d
    simp at hd
    simp [hd]
  | cons c cs =>
    exfalso
    have : listLt ([] : List Char) d.data = false := h
    rw [hd] at this
    simp [listLt] at this

theorem perm_insertByDateDesc (a : IdxArticle) :
    ∀ l : List IdxArticle, (insertByDateDesc a l).Perm (a :: l) := by
  intro l
  induction l with
  | nil => simp [insertByDateDesc]
  | cons b bs ih =>
    cases hb : strLt (dateKey a) (dateKey b) with
    | false => simp [insertByDateDesc, hb]
    | true =>
      simp only [insertByDateDesc, hb, if_true]
      exact (ih.cons b).trans (List.Perm.swap a b bs)

theorem perm_sortByDateDesc : ∀ l : List IdxArticle, (sortByDateDesc l).Perm l := by
  intro l
  induction l with
  | nil => simp [sortByDateDesc]
  | cons a as ih =>
    exact ((perm_insertByDateDesc a (sortByDateDesc as)).trans (ih.cons a))

theorem pairwise_insertByDateDesc (a : IdxArticle) :
    ∀ l : List IdxArticle,
      l.Pairwise (fun x y => strLt (dateKey x) (dateKey y) = false) →
      (insertByDateDesc a l).Pairwise (fun x y => strLt (dateKey x) (dateKey y) = false) := by
  intro l
  induction l with
  | nil => intro _; simp [insertByDateDesc]
  | cons b bs ih =>
    intro hp
    rw [List.pairwise_cons] at hp
    obtain ⟨hb, hbs⟩ := hp
    cases hab : strLt (dateKey a) (dateKey b) with
    | true =>
      simp only [insertByDateDesc, hab, if_true]
      rw [List.pairwise_cons]
      refine ⟨?_, ih hbs⟩
      intro x hx
      have hx' := (perm_insertByDateDesc a bs).mem_iff.mp hx
      rw [List.mem_cons] at hx'
      cases hx' with
      | inl hxa => subst hxa; exact strLt_asymm hab
      | inr hxbs => exact hb x hxbs
    | false =>
      simp only [insertByDateDesc, hab, Bool.false_eq_true, if_false]
      rw [List.pairwise_cons]
      refine ⟨?_, ?_⟩
      · intro x hx
        rw [List.mem_cons] at hx
        cases hx with
        | inl hxb => subst hxb; exact hab
        | inr hxbs => exact strLt_neg_trans hab (hb x hxbs)
      · rw [List.pairwise_cons]; exact ⟨hb, hbs⟩

theorem pairwise_sortByDateDesc :
    ∀ l : List IdxArticle,
      (sortByDateDesc l).Pairwise (fun x y => strLt (dateKey x) (dateKey y) = false) := by
  intro l
  induction l with
  | nil => simp [sortByDateDesc]
  | cons a as ih => exact pairwise_insertByDateDesc a (sortByDateDesc as) ih

theorem perm_insertByCountAsc (a : String × Nat) :
    ∀ l : List (String × Nat), (insertByCountAsc a l).Perm (a :: l) := by
  intro l
  induction l with
  | nil => simp [insertByCountAsc]
  | cons b bs ih =>
    by_cases hb : b.2 < a.2
    · simp only [insertByCountAsc, if_pos hb]
      exact (ih.cons b).trans (List.Perm.swap a b bs)
    · simp [insertByCountAsc, if_neg hb]

theorem perm_sortByCountAsc : ∀ l : List (String × Nat), (sortByCountAsc l).Perm l := by
  intro l
  induction l with
  | nil => simp [sortByCountAsc]
  | cons a as ih =>
    exact ((perm_insertByCountAsc a (sortByCountAsc as)).trans (ih.cons a))

/-- C1: a query matching both the gap keyword group and the strategy keyword group
takes only the gap-analysis branch of the Analytics handler (the if/elif chain is
ordered and the gap group is tested first): the whole response is the dashboard
header, the "Content Gap Analysis" section and the private-mode footer. -/
theorem analytics_gap_beats_strategy (cat : Catalog)
    (retrieve : Nat → Except String (List SearchResult)) (q : String)
    (hgap : anyWord q ["gap", "opportunity", "missing", "underserved"] = true)
    (hstrat : anyWord q ["strategy", "next", "recommend", "suggest", "improve"] = true) :
    analyze_content cat retrieve q =
      joinNl ["📊 **Content Analytics Dashboard**\n",
              "**Content Gap Analysis:**", find_content_gaps cat,
              "\n🔒 **Private Mode:** Full analytics access with detailed content insights and strategic recommendations."] := by
  have hq : (q == "") = false := by
    cases hq' : (q == "") with
    | false => rfl
    | true =>
      exfalso
      have hqe : q = "" := by simpa using hq'
      subst hqe
      have : anyWord "" ["gap", "opportunity", "missing", "underserved"] = false := by decide
      rw [this] at hgap
      exact Bool.false_ne_true hgap
  simp only [analyze_content, hq, Bool.false_eq_true, if_false, hgap, if_true]
  rfl

theorem analytics_gap_beats_strategy_witness :
    analyze_content (Catalog.mk [] []) (fun _ => .ok []) "gap strategy" =
      joinNl ["📊 **Content Analytics Dashboard**\n",
              "**Content Gap Analysis:**", find_content_gaps (Catalog.mk [] []),
              "\n🔒 **Private Mode:** Full analytics access with detailed content insights and strategic recommendations."] :=
  analytics_gap_beats_strategy (Catalog.mk [] []) (fun _ => .ok []) "gap strategy"
    (by decide) (by decide)

/-- C2: the Discovery handler analyzes exactly the first 2 keywords of the fixed
list that occur case-insensitively in the query, in list order (a sublist of
`tech_keywords`), never more than 2, and each analyzed keyword does occur in the
query; for "Tell me about Python and Docker projects" that is python then docker. -/
theorem discovery_first_two_keywords (q : String) (hq : q ≠ "") :
    discoveryTechsToAnalyze q =
      (tech_keywords.filter (fun t => strHas (strLower q) (strLower t))).take 2
    ∧ (discoveryTechsToAnalyze q).Sublist tech_keywords
    ∧ (∀ t ∈ discoveryTechsToAnalyze q, strHas (strLower q) (strLower t) = true)
    ∧ (discoveryTechsToAnalyze q).length ≤ 2
    ∧ discoveryTechsToAnalyze "Tell me about Python and Docker projects" = ["python", "docker"] := by
  refine ⟨rfl, ?_, ?_, ?_, by decide⟩
  · exact (List.take_sublist 2 _).trans (List.filter_sublist _)
  · intro t ht
    have ht' : t ∈ mentionedTech q := List.take_subset 2 _ ht
    exact (List.mem_filter.mp ht').2
  · exact List.length_take_le 2 _

theorem discovery_first_two_keywords_witness :
    discoveryTechsToAnalyze "Tell me about Python and Docker projects" = ["python", "docker"] :=
  (discovery_first_two_keywords "Tell me about Python and Docker projects"
    (by decide)).2.2.2.2

/-- Concrete tech-index articles used in counterexamples and witnesses. -/
def exIdxA : IdxArticle := IdxArticle.mk "A" none

/-- Concrete dated article used in counterexamples and witnesses. -/
def exIdxB : IdxArticle := IdxArticle.mk "B" (some "2024-01-01")

/-- C3 counterexample: on the aggregated match list [A (no date), B (2024-01-01)]
the sort of `analyze_tech_stack` places the missing-date article LAST, not first:
the claimed order [A, B] is not produced. -/
theorem analyze_missing_date_not_first :
    matchingArticles [("Docker", [exIdxA, exIdxB])] "docker" = [exIdxA, exIdxB]
    ∧ dateKey exIdxA = ""
    ∧ sortByDateDesc [exIdxA, exIdxB] = [exIdxB, exIdxA]
    ∧ sortByDateDesc [exIdxA, exIdxB] ≠ [exIdxA, exIdxB] :=
  ⟨by decide, rfl, by decide, by decide⟩

/-- C3 amended: `analyze_tech_stack` sorts the aggregated matched records by date
descending with a missing date treated as the empty string and sorting LAST
(whenever `a` precedes `b` in the sorted order and `a` has empty key, so does `b`),
and the rendered output lists the first 5 articles of that sorted order
(`renderAnalysis` takes `sorted.take 5`). -/
theorem analyze_sort_desc_missing_last (cat : Catalog) (technology : String)
    (hm : matchingArticles cat.tech_index_data technology ≠ []) :
    (sortByDateDesc (matchingArticles cat.tech_index_data technology)).Perm
      (matchingArticles cat.tech_index_data technology)
    ∧ (sortByDateDesc (matchingArticles cat.tech_index_data technology)).Pairwise
        (fun a b => strLt (dateKey a) (dateKey b) = false)
    ∧ (∀ a b : IdxArticle,
        [a, b].Sublist (sortByDateDesc (matchingArticles cat.tech_index_data technology)) →
        dateKey a = "" → dateKey b = "")
    ∧ analyze_tech_stack cat technology =
        joinNl (renderAnalysis technology
          (sortByDateDesc (matchingArticles cat.tech_index_data technology))) := by
  refine ⟨perm_sortByDateDesc _, pairwise_sortByDateDesc _, ?_, ?_⟩
  · intro a b hsub ha
    have hp := (pairwise_sortByDateDesc
      (matchingArticles cat.tech_index_data technology)).sublist hsub
    rw [List.pairwise_cons] at hp
    have hab := hp.1 b (by simp)
    rw [ha] at hab
    exact strLt_empty_forces hab
  · have hne : (matchingArticles cat.tech_index_data technology).isEmpty = false := by
      cases hmm : matchingArticles cat.tech_index_data technology with
      | nil => exact absurd hmm hm
      | cons x xs => rfl
    simp only [analyze_tech_stack, hne, Bool.false_eq_true, if_false]

theorem analyze_sort_desc_missing_last_witness :
    analyze_tech_stack (Catalog.mk [] [("Docker", [exIdxA, exIdxB])]) "docker" =
      joinNl (renderAnalysis "docker"
        (sortByDateDesc (matchingArticles [("Docker", [exIdxA, exIdxB])] "docker"))) :=
  (analyze_sort_desc_missing_last (Catalog.mk [] [("Docker", [exIdxA, exIdxB])]) "docker"
    (by decide)).2.2.2

/-- An 11-technology index in which every technology has exactly 1 article. -/
def exIdx11 : List (String × List IdxArticle) :=
  [("t01", [exIdxA]), ("t02", [exIdxA]), ("t03", [exIdxA]), ("t04", [exIdxA]),
   ("t05", [exIdxA]), ("t06", [exIdxA]), ("t07", [exIdxA]), ("t08", [exIdxA]),
   ("t09", [exIdxA]), ("t10", [exIdxA]), ("t11", [exIdxA])]

/-- C4 counterexample: `find_content_gaps` examines only the first 10 entries of
the count-ascending order (`sorted_tech[:10]`), so with 11 technologies all of
count 1 < 3, technology "t11" has limited coverage but is NOT flagged. -/
theorem gaps_cap_drops_low_coverage_tech :
    (("t11", 1) ∈ techCounts exIdx11 ∧ (1 : Nat) < 3)
    ∧ "t11" ∉ (limitedTechsOf exIdx11).map Prod.fst :=
  ⟨⟨by decide, by decide⟩, by decide⟩

/-- C4 amended: the flagged limited-coverage entries are exactly the technologies
with count < 3 among the first 10 entries of the stable count-ascending ordering:
every flagged entry has count < 3 and comes from the tech index, and when the index
has at most 10 technologies (as in the 4-entry example of the claim) EVERY technology
with count < 3 is flagged; each flagged entry is printed in the output under the
limited-coverage heading. -/
theorem gaps_limited_coverage_amended (idx : List (String × List IdxArticle)) :
    (∀ p ∈ limitedTechsOf idx, p.2 < 3 ∧ p ∈ techCounts idx)
    ∧ (idx.length ≤ 10 → ∀ p ∈ techCounts idx, p.2 < 3 → p ∈ limitedTechsOf idx)
    ∧ (∀ (man : List Article), ∀ p ∈ limitedTechsOf idx,
        strHas (find_content_gaps (Catalog.mk man idx))
          ("  • " ++ p.1 ++ ": " ++ toString p.2 ++ " article(s)") = true) := by
  refine ⟨?_, ?_, ?_⟩
  · intro p hp
    have hp' := List.mem_filter.mp hp
    refine ⟨by simpa using hp'.2, ?_⟩
    have hs : p ∈ sortByCountAsc (techCounts idx) := List.take_subset 10 _ hp'.1
    exact (perm_sortByCountAsc (techCounts idx)).mem_iff.mp hs
  · intro hlen p hp h3
    have hcl : (techCounts idx).length = idx.length := List.length_map _ _
    have hsl : (sortByCountAsc (techCounts idx)).length ≤ 10 := by
      rw [(perm_sortByCountAsc (techCounts idx)).length_eq, hcl]
      exact hlen
    have htake : (sortByCountAsc (techCounts idx)).take 10 = sortByCountAsc (techCounts idx) :=
      List.take_of_length_le hsl
    refine List.mem_filter.mpr ⟨?_, by simpa using h3⟩
    rw [htake]
    exact (perm_sortByCountAsc (techCounts idx)).mem_iff.mpr hp
  · intro man p hp
    apply strHas_joinNl
    simp only [find_content_gaps]
    exact List.mem_append_left _ (List.mem_append_left _ (List.mem_append_left _
      (List.mem_append_right _ (List.mem_map_of_mem _ hp))))

theorem gaps_limited_coverage_amended_witness :
    ("A", 1) ∈ limitedTechsOf
      [("A", [exIdxA]), ("B", [exIdxA, exIdxA]), ("B2", [exIdxA, exIdxA, exIdxA]),
       ("C", [exIdxA, exIdxA, exIdxA, exIdxA, exIdxA])] :=
  (gaps_limited_coverage_amended
    [("A", [exIdxA]), ("B", [exIdxA, exIdxA]), ("B2", [exIdxA, exIdxA, exIdxA]),
     ("C", [exIdxA, exIdxA, exIdxA, exIdxA, exIdxA])]).2.1
    (by decide) ("A", 1) (by decide) (by decide)

/-- C5 counterexample: a mode value outside the three literals does NOT behave as
the default discovery mode: the prompt is the bare query with no discovery prefix. -/
theorem chat_unknown_mode_not_discovery :
    chatPrompt (some "foo") "hello" = "hello"
    ∧ chatPrompt (some "foo") "hello" ≠
        "You are a discovery agent. Provide brief summaries and teasers about articles. Query: hello" :=
  ⟨by decide, by decide⟩

/-- C5 amended: a MISSING mode value defaults to "discovery" and yields the
discovery instruction prefix followed by the query, while a mode value that is
none of the three literals falls to the final else and forwards the bare query
with no instruction prefix. -/
theorem chat_mode_default_amended (q : String) :
    chatPrompt none q =
      "You are a discovery agent. Provide brief summaries and teasers about articles. Query: " ++ q
    ∧ (∀ m : String, m ≠ "discovery" → m ≠ "tech-explorer" → m ≠ "analytics" →
        chatPrompt (some m) q = q) := by
  constructor
  · rfl
  · intro m h1 h2 h3
    simp only [chatPrompt, Option.getD_some]
    rw [if_neg (by simpa using h1), if_neg (by simpa using h2), if_neg (by simpa using h3)]

theorem chat_mode_default_amended_witness :
    chatPrompt (some "bogus") "hi" = "hi"
    ∧ chatPrompt none "hi" =
        "You are a discovery agent. Provide brief summaries and teasers about articles. Query: " ++ "hi" :=
  ⟨(chat_mode_default_amended "hi").2 "bogus" (by decide) (by decide) (by decide),
   (chat_mode_default_amended "hi").1⟩

/-- C6: `search_articles` is total over the modelled retrieval outcome: an
exception yields the fallback string (which contains the failure reason), an
empty result list yields the fixed no-results message, and a non-empty result
list yields the blocks produced by `renderResult` with 1-based indices
(indices are exactly 1, 2, ..., n), title defaulting to "Unknown", score to 2
decimals and the first 300 characters of the text. -/
theorem search_articles_degrades_gracefully (q : String) (k : Nat) :
    (∀ e : String, search_articles q k (.error e) =
        "LlamaCloud search unavailable (" ++ e ++ "). Using local article metadata search instead."
      ∧ strHas (search_articles q k (.error e)) e = true)
    ∧ search_articles q k (.ok []) = "No relevant articles found."
    ∧ (∀ rs : List SearchResult, rs ≠ [] →
        search_articles q k (.ok rs) =
          joinNl (((rs.enumFrom 1).map (fun p => renderResult p.1 p.2)).flatten)
        ∧ (rs.enumFrom 1).map Prod.fst = List.range' 1 rs.length)
    ∧ (∀ (i : Nat) (r : SearchResult), renderResult i r =
        ["Result " ++ toString i ++ ":",
         "Title: " ++ r.title.getD "Unknown",
         "Relevance: " ++ fmt2 r.score,
         "Excerpt: " ++ r.text.take 300 ++ "...",
         "---"]) := by
  refine ⟨?_, rfl, ?_, fun i r => rfl⟩
  · intro e
    refine ⟨rfl, ?_⟩
    exact strHas_middle "LlamaCloud search unavailable (" e
      "). Using local article metadata search instead."
  · intro rs hrs
    refine ⟨?_, List.enumFrom_map_fst 1 rs⟩
    cases rs with
    | nil => exact absurd rfl hrs
    | cons x xs => rfl

theorem search_articles_degrades_gracefully_witness :
    (search_articles "x" 3 (.error "boom") =
        "LlamaCloud search unavailable (" ++ "boom" ++ "). Using local article metadata search instead.")
    ∧ search_articles "x" 3 (.ok []) = "No relevant articles found."
    ∧ search_articles "x" 3 (.ok [SearchResult.mk (some "T") 1 "body"]) =
        joinNl ((([SearchResult.mk (some "T") 1 "body"].enumFrom 1).map
          (fun p => renderResult p.1 p.2)).flatten) :=
  ⟨((search_articles_degrades_gracefully "x" 3).1 "boom").1,
   (search_articles_degrades_gracefully "x" 3).2.1,
   ((search_articles_degrades_gracefully "x" 3).2.2.1 [SearchResult.mk (some "T") 1 "body"]
     (by simp)).1⟩

theorem keepArticle_iff (tech : Option String) (year : Option Int) (tag : Option String)
    (a : Article) :
    keepArticle tech year tag a = true ↔
      ((∀ t, tech = some t → t ≠ "" →
          a.tech_stack.any (fun s => strHas (strLower s) (strLower t)) = true)
       ∧ (∀ y, year = some y → y ≠ 0 → a.year = some y)
       ∧ (∀ t, tag = some t → t ≠ "" →
          a.tags.any (fun s => strHas (strLower s) (strLower t)) = true)) := by
  rcases tech with _ | t <;> rcases year with _ | y <;> rcases tag with _ | g <;>
    simp [keepArticle, Bool.and_eq_true, Bool.or_eq_true, beq_iff_eq] <;>
    tauto

/-- C7: `filter_by_metadata` keeps exactly the articles satisfying every supplied
non-empty filter (case-insensitive substring for tech and tag against the
respective lists, exact equality for year), reports the fixed no-match message on
an empty result, displays at most 10 matches, and when more than 10 match the
output contains the "... and N more" suffix with N the number of extra matches. -/
theorem filter_by_metadata_conjunctive (cat : Catalog) (tech : Option String)
    (year : Option Int) (tag : Option String) :
    (∀ a : Article, a ∈ filteredMatches cat tech year tag ↔
        a ∈ cat.articles_manifest
        ∧ ((∀ t, tech = some t → t ≠ "" →
              a.tech_stack.any (fun s => strHas (strLower s) (strLower t)) = true)
           ∧ (∀ y, year = some y → y ≠ 0 → a.year = some y)
           ∧ (∀ t, tag = some t → t ≠ "" →
              a.tags.any (fun s => strHas (strLower s) (strLower t)) = true)))
    ∧ (filteredMatches cat tech year tag = [] →
        filter_by_metadata cat tech year tag = "No articles found matching the criteria.")
    ∧ ((filteredMatches cat tech year tag).take 10).length ≤ 10
    ∧ ((filteredMatches cat tech year tag).length > 10 →
        strHas (filter_by_metadata cat tech year tag)
          ("... and " ++ toString ((filteredMatches cat tech year tag).length - 10) ++ " more")
          = true) := by
  refine ⟨?_, ?_, ?_, ?_⟩
  · intro a
    rw [filteredMatches, List.mem_filter]
    exact and_congr_right (fun _ => keepArticle_iff tech year tag a)
  · intro h
    simp [filter_by_metadata, h]
  · exact List.length_take_le 10 _
  · intro h
    have hne : (filteredMatches cat tech year tag).isEmpty = false := by
      cases hmm : filteredMatches cat tech year tag with
      | nil => rw [hmm] at h; simp at h
      | cons x xs => rfl
    simp only [filter_by_metadata, hne, Bool.false_eq_true, if_false, if_pos h]
    apply strHas_joinNl
    simp

/-- A concrete manifest article used in witnesses. -/
def exArt : Article :=
  Article.mk "T" none (some 2024) ["ai"] ["Python"] none none

theorem filter_by_metadata_conjunctive_witness :
    strHas (filter_by_metadata (Catalog.mk (List.replicate 12 exArt) []) none none none)
      ("... and " ++
        toString ((filteredMatches (Catalog.mk (List.replicate 12 exArt) [])
          none none none).length - 10) ++ " more") = true :=
  (filter_by_metadata_conjunctive (Catalog.mk (List.replicate 12 exArt) [])
    none none none).2.2.2 (by decide)

/-- C8: every query function leaves the catalog unchanged.  Each state-threading
form returns the catalog it was given (field by field), reflecting that the
embedded code only reads `articles_manifest` and `tech_index_data`; the sort in
`analyze_tech_stack` is applied to the freshly aggregated `matchingArticles`
list, and the per-technology lists of the returned index are untouched. -/
theorem query_functions_read_only (cat : Catalog) (q : String) (k : Nat)
    (o : Except String (List SearchResult)) (tech : Option String) (year : Option Int)
    (tag : Option String) (technology titleQuery : String) :
    (search_articlesSt cat q k o).2 = cat
    ∧ (filter_by_metadataSt cat tech year tag).2 = cat
    ∧ (analyze_tech_stackSt cat technology).2 = cat
    ∧ (analyze_tech_stackSt cat technology).2.tech_index_data = cat.tech_index_data
    ∧ (find_content_gapsSt cat).2 = cat
    ∧ (get_full_articleSt cat titleQuery).2 = cat :=
  ⟨rfl, rfl, rfl, rfl, rfl, rfl⟩

/-- C9: when the external search call fails, the guard of the Discovery handler (which
only tests for the substring "No relevant articles found") does not suppress the
fallback text, so the response presents the degraded-service string under the
"🔍 **Search Results:**" heading. -/
theorem discovery_presents_fallback_as_results (cat : Catalog) (e q : String)
    (hq : q ≠ "")
    (hg : strHas ("LlamaCloud search unavailable (" ++ e ++
        "). Using local article metadata search instead.") "No relevant articles found" = false) :
    strHas (discover_articles cat (fun _ => Except.error e) q) "🔍 **Search Results:**" = true
    ∧ strHas (discover_articles cat (fun _ => Except.error e) q)
        ("LlamaCloud search unavailable (" ++ e ++
          "). Using local article metadata search instead.") = true := by
  have hq' : (q == "") = false := by
    cases hqq : (q == "") with
    | false => rfl
    | true => exact absurd (by simpa using hqq) hq
  have hsearch : search_articles q 3 (Except.error e) =
      "LlamaCloud search unavailable (" ++ e ++
        "). Using local article metadata search instead." := rfl
  constructor <;>
  · simp only [discover_articles, hq', Bool.false_eq_true, if_false, hsearch, hg,
      List.cons_append, List.isEmpty_cons]
    apply strHas_joinNl
    simp

theorem discovery_presents_fallback_as_results_witness :
    strHas (discover_articles (Catalog.mk [] []) (fun _ => Except.error "timeout") "hello")
      "🔍 **Search Results:**" = true
    ∧ strHas (discover_articles (Catalog.mk [] []) (fun _ => Except.error "timeout") "hello")
        ("LlamaCloud search unavailable (" ++ "timeout" ++
          "). Using local article metadata search instead.") = true :=
  discovery_presents_fallback_as_results (Catalog.mk [] []) "timeout" "hello"
    (by decide) (by decide)

/-- C10: with the empty string as title query, `get_full_article` matches every
article (empty-substring match), so a catalog of 2 or more articles yields the
"Multiple matches found" disambiguation list of at most the first 5 titles and
never any article content, while a 1-article catalog yields that article in its
full rendering. -/
theorem get_full_article_empty_query (cat : Catalog) :
    cat.articles_manifest.filter
        (fun a => strHas (strLower a.title) (strLower "")) = cat.articles_manifest
    ∧ (2 ≤ cat.articles_manifest.length →
        get_full_article cat "" =
          "Multiple matches found. Please be more specific:\n" ++
            joinNl ((cat.articles_manifest.take 5).map (fun x => "  • " ++ x.title)))
    ∧ (∀ a : Article, cat.articles_manifest = [a] →
        get_full_article cat "" = joinNl (renderFull a)) := by
  have hfil : cat.articles_manifest.filter
      (fun a => strHas (strLower a.title) (strLower "")) = cat.articles_manifest := by
    apply List.filter_eq_self.mpr
    intro a _
    exact listFind_nil (strLower a.title).data
  refine ⟨hfil, ?_, ?_⟩
  · intro hlen
    cases hm : cat.articles_manifest with
    | nil => rw [hm] at hlen; simp at hlen
    | cons x xs =>
      cases xs with
      | nil => rw [hm] at hlen; simp at hlen
      | cons y ys =>
        rw [get_full_article, hfil, hm]
  · intro a ha
    rw [get_full_article, hfil, ha]

theorem get_full_article_empty_query_witness :
    get_full_article (Catalog.mk [exArt, Article.mk "U" none none [] [] none none] []) "" =
      "Multiple matches found. Please be more specific:\n" ++
        joinNl (([exArt, Article.mk "U" none none [] [] none none].take 5).map
          (fun x => "  • " ++ x.title))
    ∧ get_full_article (Catalog.mk [exArt] []) "" = joinNl (renderFull exArt) :=
  ⟨(get_full_article_empty_query
      (Catalog.mk [exArt, Article.mk "U" none none [] [] none none] [])).2.1 (by decide),
   (get_full_article_empty_query (Catalog.mk [exArt] [])).2.2 exArt rfl⟩
